import Mathlib

/-!
Verification of the Token-Flight-Bot distribution-planning engine.

Shallow embedding of the planning core of the repository:
  - `calculate_token_distributions` (distribution_bot.py lines 119-191,
    duplicated in token_distribution.py lines 131-203),
  - `select_utxos` (distribution_bot.py lines 39-107),
  - `distribute_multiple_tokens` (distribution_bot.py lines 193-295,
    duplicated in token_distribution.py lines 205-307).

Python integers are modelled as `Int`; Python floor division `//` is
`Int.fdiv`, `int()` truncation of a nonnegative real is `Int.tdiv` of a
rational, and the exact real arithmetic of the quadratic formula is
modelled over `ℚ`.  Python exceptions are modelled with `Except`.
Dictionaries are modelled as association lists in iteration order with
first-match lookup (a Python dict has unique keys).  The node lookup
`appKit.getBoxesById` is external collaboration and is modelled as always
returning the queried box.  The two values the program computes in IEEE
double arithmetic — the ok-values of the logarithmic and quadratic
emission branches — are abstracted as function parameters `logVal` and
`quadVal`, since exact rational arithmetic is not faithful to their
rounding; every theorem holds for all such parameters, while the
branches' error behaviour (domain error for a non-positive log argument,
zero division when ln(total_rounds) = 0 or when a divisor is 0) is
modelled exactly.
-/

/-- A UTXO record as produced by the scanner: box id, nanoERG value, and
the box's token dictionary (token id ↦ amount).  Mirrors the dicts built
in utxo_scanner.py lines 31-39. -/
structure Box where
  box_id : String
  value : Int
  tokens : List (String × Int)
deriving Repr, DecidableEq

/-- Python `box['tokens'].get(tid, 0)`. -/
def Box.tokenAmount (b : Box) (tid : String) : Int :=
  (b.tokens.lookup tid).getD 0

/-- Python `tid in box['tokens']`. -/
def Box.hasToken (b : Box) (tid : String) : Bool :=
  (b.tokens.lookup tid).isSome

/-- The `all_utxos : Dict[str, List[Dict]]` snapshot, as an association
list in dict iteration order. -/
abbrev Snapshot := List (String × List Box)

/-- Python `all_utxos.get(tid, [])`. -/
def Snapshot.get (s : Snapshot) (tid : String) : List Box :=
  (List.lookup tid s).getD []

/-- The `TokenDistribution` dataclass (distribution_bot.py lines 26-30). -/
structure TokenDistribution where
  token_id : String
  amount_per_recipient : Int
  total_amount : Int
deriving Repr, DecidableEq

/-- One entry of the `token_configs` dict consumed by
`calculate_token_distributions` (the fields it reads). -/
structure TokenCfg where
  token_id : String
  distribution_type : String
  tokens_per_round : Int
  total_amount : Int
deriving Repr, DecidableEq

/-- Python `int(0.001 * 1e9)` (distribution_bot.py lines 21-24). -/
def NANOERG_PER_RECIPIENT : Int := 1000000

def MIN_BOX_VALUE : Int := 1000000

def FEE : Int := 1000000

/-- The Python exceptions the planning core can raise:
`ZeroDivisionError` (integer or float division by zero, including
`math.log(total_rounds)` evaluating to exactly 0.0) and the
`ValueError` math-domain error of `math.log` on a non-positive
argument. -/
inductive CalcErr where
  | zeroDivision : CalcErr
  | domainError : CalcErr
deriving Repr, DecidableEq

/-- Python `math.ceil(a / b)` on integers: the exact ceiling of the
rational a/b, written with integer floor division so it evaluates in the
kernel; `pyCeilDiv_eq_ceil` below identifies it with `Int.ceil` of the
rational for a positive divisor (b ≠ 0 is guarded by the caller model). -/
def pyCeilDiv (a b : Int) : Int := -Int.fdiv (-a) b

/-- The per-token round-amount computation of
`calculate_token_distributions` (distribution_bot.py lines 160-175):
`total_rounds = math.ceil(total_amount / tokens_per_round)` followed by
the distribution-type branch.  `logVal base t r` abstracts the IEEE
double value `int(base * math.log(t - r + 1) / math.log(t))` in the
non-raising logarithmic case, and `quadVal base t r` abstracts the IEEE
double value `int(base * ((t - r) / t) ** 2)` in the non-raising
quadratic case, as exact rational arithmetic does not reproduce their
rounding; the raising cases are modelled exactly (numerator `math.log`
evaluated first, then denominator; `/ t` raising when t = 0). -/
def roundAmount (logVal quadVal : Int → Int → Int → Int) (dtype : String)
    (base total r : Int) : Except CalcErr Int :=
  if base = 0 then Except.error CalcErr.zeroDivision
  else
    let t := pyCeilDiv total base
    if dtype = "linear" then Except.ok base
    else if dtype = "logarithmic" then
      if t - r + 1 ≤ 0 then Except.error CalcErr.domainError
      else if t ≤ 0 then Except.error CalcErr.domainError
      else if t = 1 then Except.error CalcErr.zeroDivision
      else Except.ok (logVal base t r)
    else if dtype = "quadratic" then
      if t = 0 then Except.error CalcErr.zeroDivision
      else Except.ok (quadVal base t r)
    else Except.ok base

/-- Python `sum(utxo['tokens'].get(token_id, 0) for utxo in token_utxos)`
(distribution_bot.py lines 152-155). -/
def availTotal (s : Snapshot) (tid : String) : Int :=
  ((s.get tid).map (fun u => u.tokenAmount tid)).sum

/-- The body of the per-token loop of `calculate_token_distributions`
(distribution_bot.py lines 144-189): skip when the token's UTXO list is
empty or its available total is 0, otherwise compute the round amount,
divide by the recipient count (`//` raising on 0), and append a
distribution only when the per-recipient amount is positive. -/
def processToken (logVal quadVal : Int → Int → Int → Int) (s : Snapshot)
    (r n : Int) (cfg : TokenCfg) : Except CalcErr (Option TokenDistribution) :=
  let tid := cfg.token_id
  if s.get tid = [] then Except.ok none
  else if availTotal s tid = 0 then Except.ok none
  else
    match roundAmount logVal quadVal cfg.distribution_type cfg.tokens_per_round
        cfg.total_amount r with
    | Except.error e => Except.error e
    | Except.ok ra =>
      if n = 0 then Except.error CalcErr.zeroDivision
      else
        let per := min (Int.fdiv ra n) (Int.fdiv (availTotal s tid) n)
        if 0 < per then
          Except.ok (some ⟨tid, per, per * n⟩)
        else Except.ok none

/-- The function `calculate_token_distributions` (distribution_bot.py lines 119-191):
iterate the token configs in dict order, collecting the appended
distributions; any exception raised for one token propagates and aborts
the whole call. -/
def calculate_token_distributions (logVal quadVal : Int → Int → Int → Int)
    (s : Snapshot) (cfgs : List TokenCfg) (r n : Int) :
    Except CalcErr (List TokenDistribution) :=
  match cfgs with
  | [] => Except.ok []
  | c :: rest =>
    match processToken logVal quadVal s r n c with
    | Except.error e => Except.error e
    | Except.ok o =>
      match calculate_token_distributions logVal quadVal s rest r n with
      | Except.error e => Except.error e
      | Except.ok ds => Except.ok (o.toList ++ ds)

/-- The mutable selection state of `select_utxos` (distribution_bot.py
lines 44-47): `selected_boxes`, `selected_box_ids` (a set, modelled as
the duplicate-free list of ids in insertion order), `total_erg`, and the
`token_amounts` dict (modelled as a function; it is only ever read at
requested token ids, which are its exact key set). -/
structure SelState where
  boxes : List Box
  ids : List String
  total_erg : Int
  amts : String → Int

/-- Python `[dist.token_id for dist in token_distributions]`. -/
def requestedIds (dists : List TokenDistribution) : List String :=
  dists.map (fun d => d.token_id)

/-- Python `sum(1 for tid in token_amounts.keys() if tid in box['tokens'])`
(distribution_bot.py line 57): the keys of the `token_amounts` dict are
the distinct requested token ids. -/
def requestedCount (dists : List TokenDistribution) (b : Box) : Nat :=
  (requestedIds dists).dedup.countP (fun tid => b.hasToken tid)

/-- Pass 1 candidate collection (distribution_bot.py lines 50-54): every
snapshot UTXO whose token dict has more than one entry, in snapshot
iteration order. -/
def multiTokenBoxes (s : Snapshot) : List Box :=
  s.flatMap (fun p => p.2.filter (fun u => u.tokens.length > 1))

/-- The sorted pass-1 consumption list (distribution_bot.py line 57):
Python list.sort with reverse=True is a stable descending sort on the
requested-token count; a stable sort of a list under a total preorder is
unique, so it is modelled by the stable `List.insertionSort`. -/
def sortedMultiTokenBoxes (s : Snapshot) (dists : List TokenDistribution) :
    List Box :=
  List.insertionSort
    (fun a b => requestedCount dists b ≤ requestedCount dists a)
    (multiTokenBoxes s)

/-- Consuming one pass-1 box (distribution_bot.py lines 60-67): skip if
already selected, else append it and add every token amount it holds at
a requested token id. -/
def pass1Step (dists : List TokenDistribution) (st : SelState) (b : Box) :
    SelState :=
  if b.box_id ∈ st.ids then st
  else
    { boxes := st.boxes ++ [b]
      ids := st.ids ++ [b.box_id]
      total_erg := st.total_erg + b.value
      amts := fun t =>
        st.amts t + (if t ∈ requestedIds dists then b.tokenAmount t else 0) }

/-- The initial state and pass 1 (distribution_bot.py lines 44-67). -/
def pass1 (s : Snapshot) (dists : List TokenDistribution) : SelState :=
  (sortedMultiTokenBoxes s dists).foldl (pass1Step dists)
    { boxes := [], ids := [], total_erg := 0, amts := fun _ => 0 }

/-- The pass-2 inner loop (distribution_bot.py lines 81-88): break as
soon as the token's accumulated amount meets its target, otherwise
consume the next box, adding only that token's amount. -/
def consume (tid : String) (target : Int) : List Box → SelState → SelState
  | [], st => st
  | b :: rest, st =>
    if target ≤ st.amts tid then st
    else
      consume tid target rest
        { boxes := st.boxes ++ [b]
          ids := st.ids ++ [b.box_id]
          total_erg := st.total_erg + b.value
          amts := fun t =>
            if t = tid then st.amts t + b.tokenAmount tid else st.amts t }

/-- One pass-2 iteration for one distribution (distribution_bot.py lines
70-88): if still short, filter the token's snapshot list by the shared
used-id set, sort descending by that token's amount (stable), and
consume. -/
def pass2Step (s : Snapshot) (st : SelState) (dist : TokenDistribution) :
    SelState :=
  if st.amts dist.token_id < dist.total_amount then
    let avail := List.insertionSort
      (fun a b => b.tokenAmount dist.token_id ≤ a.tokenAmount dist.token_id)
      ((s.get dist.token_id).filter (fun b => b.box_id ∉ st.ids))
    consume dist.token_id dist.total_amount avail st
  else st

/-- Both selection passes of `select_utxos`, before the final checks
(distribution_bot.py lines 44-88). -/
def selectState (s : Snapshot) (dists : List TokenDistribution) : SelState :=
  dists.foldl (pass2Step s) (pass1 s dists)

/-- The structured content of the two `ValueError`s of `select_utxos`
(distribution_bot.py lines 96-100): the token error lists every short
token with its need and have, the ERG error carries need and have. -/
inductive SelErr where
  | insufficientTokens : List (String × Int × Int) → SelErr
  | insufficientErg : Int → Int → SelErr
deriving Repr, DecidableEq

/-- Python `needed_erg = (NANOERG_PER_RECIPIENT + MIN_BOX_VALUE) * num_recipients + FEE`
(distribution_bot.py line 43). -/
def neededErg (n : Int) : Int := (NANOERG_PER_RECIPIENT + MIN_BOX_VALUE) * n + FEE

/-- The `UTXOSet` dataclass (distribution_bot.py lines 32-37). -/
structure UTXOSet where
  boxes : List Box
  total_erg : Int
  token_amounts : String → Int
  box_ids : List String

/-- The function `select_utxos` (distribution_bot.py lines 39-107): run both passes,
then fail listing every token short of its target, else fail on short
ERG, else return the selection. -/
def select_utxos (s : Snapshot) (dists : List TokenDistribution)
    (n : Int) : Except SelErr UTXOSet :=
  let st := selectState s dists
  let missing := dists.filter (fun d => st.amts d.token_id < d.total_amount)
  if missing ≠ [] then
    Except.error (SelErr.insufficientTokens
      (missing.map (fun d => (d.token_id, d.total_amount, st.amts d.token_id))))
  else if st.total_erg < neededErg n then
    Except.error (SelErr.insufficientErg (neededErg n) st.total_erg)
  else
    Except.ok ⟨st.boxes, st.total_erg, st.amts, st.ids⟩

/-- The input-collection state of `distribute_multiple_tokens`
(distribution_bot.py lines 208-210): `input_boxes`, the `used_utxos` id
set (modelled as the duplicate-free list in insertion order), and
`total_available_erg`. -/
structure CollectState where
  inputs : List Box
  used : List String
  total_erg : Int
deriving Repr, DecidableEq

/-- The inner collection loop for one distribution (distribution_bot.py
lines 217-229): skip already-used boxes (the `continue` also skips the
break check), otherwise consume the box (the node lookup is modelled as
returning it), subtract its amount of the distribution's token from the
remaining need, and break once the remainder is ≤ 0. -/
def collectLoop (tid : String) : List Box → Int → CollectState → CollectState
  | [], _, st => st
  | u :: rest, remaining, st =>
    if u.box_id ∈ st.used then collectLoop tid rest remaining st
    else
      let st' : CollectState :=
        { inputs := st.inputs ++ [u]
          used := st.used ++ [u.box_id]
          total_erg := st.total_erg + u.value }
      let rem' := remaining - u.tokenAmount tid
      if rem' ≤ 0 then st' else collectLoop tid rest rem' st'

/-- The full input-collection pass of `distribute_multiple_tokens`
(distribution_bot.py lines 212-229), one distribution after another with
the shared used-id set. -/
def collectInputs (s : Snapshot) (dists : List TokenDistribution) :
    CollectState :=
  dists.foldl
    (fun st d => collectLoop d.token_id (s.get d.token_id) d.total_amount st)
    { inputs := [], used := [], total_erg := 0 }

/-- The `total_available` of one token for the change computation
(distribution_bot.py lines 254-258): the sum of that token's amounts
over the snapshot entries of that token whose box id is in the used
set. -/
def coveredAmount (s : Snapshot) (used : List String) (tid : String) : Int :=
  (((s.get tid).filter (fun u => u.box_id ∈ used)).map
    (fun u => u.tokenAmount tid)).sum

/-- One output box of the plan: nanoERG value and token dict
(association list in construction order). -/
structure OutBox where
  value : Int
  tokens : List (String × Int)
deriving Repr, DecidableEq

/-- The abstract distribution plan assembled by
`distribute_multiple_tokens` before the external transaction build: the
consumed input boxes, one output per recipient (in recipient order),
and the optional change output. -/
structure Plan where
  inputs : List Box
  recipientOutputs : List (String × OutBox)
  changeOutput : Option OutBox
deriving Repr, DecidableEq

/-- The one `ValueError` raised by `distribute_multiple_tokens` before
output construction (distribution_bot.py lines 231-232). -/
inductive DistErr where
  | notEnoughErg : Int → Int → DistErr
deriving Repr, DecidableEq

/-- The function `distribute_multiple_tokens` (distribution_bot.py lines 193-272), up
to the externally-submitted transaction: collect inputs, raise only when
the collected ERG is short, build one full-amount output per recipient,
compute per-token change (dropping non-positive entries), and add a
change output when there is positive ERG change or any token change. -/
def distribute_multiple_tokens (s : Snapshot)
    (dists : List TokenDistribution) (recipients : List String) :
    Except DistErr Plan :=
  let n : Int := recipients.length
  let erg_per_recipient := NANOERG_PER_RECIPIENT + MIN_BOX_VALUE
  let total_erg_needed := erg_per_recipient * n + FEE
  let st := collectInputs s dists
  if st.total_erg < total_erg_needed then
    Except.error (DistErr.notEnoughErg total_erg_needed st.total_erg)
  else
    let token_amounts := dists.map (fun d => (d.token_id, d.amount_per_recipient))
    let outputs := recipients.map
      (fun rcp => (rcp, OutBox.mk erg_per_recipient token_amounts))
    let change_tokens := dists.filterMap
      (fun d =>
        let change_amount := coveredAmount s st.used d.token_id - d.total_amount
        if 0 < change_amount then some (d.token_id, change_amount) else none)
    let change_value := st.total_erg - total_erg_needed
    let changeOutput :=
      if 0 < change_value ∨ change_tokens ≠ [] then
        some (OutBox.mk (max change_value MIN_BOX_VALUE) change_tokens)
      else none
    Except.ok ⟨st.inputs, outputs, changeOutput⟩

/-- The amount of token `tid` paid to recipients by a plan: the sum over
recipient outputs of the output dict's entry for `tid` (0 when absent). -/
def Plan.paidTotal (p : Plan) (tid : String) : Int :=
  (p.recipientOutputs.map (fun o => (o.2.tokens.lookup tid).getD 0)).sum

/-- The change dict's entry for token `tid`, if any. -/
def Plan.changeEntry (p : Plan) (tid : String) : Option Int :=
  match p.changeOutput with
  | none => none
  | some c => c.tokens.lookup tid

/-- The change amount of token `tid` carried by a plan (0 when there is
no change output or no entry). -/
def Plan.changeAmount (p : Plan) (tid : String) : Int :=
  (p.changeEntry tid).getD 0

/-! ### Helper lemmas -/

instance exceptDecEq {ε α : Type} [DecidableEq ε] [DecidableEq α] :
    DecidableEq (Except ε α) := fun x y =>
  match x, y with
  | Except.ok a, Except.ok b =>
    if h : a = b then isTrue (by rw [h])
    else isFalse (by intro he; cases he; exact h rfl)
  | Except.ok _, Except.error _ => isFalse (by intro he; cases he)
  | Except.error _, Except.ok _ => isFalse (by intro he; cases he)
  | Except.error e, Except.error f =>
    if h : e = f then isTrue (by rw [h])
    else isFalse (by intro he; cases he; exact h rfl)

lemma floor_intCast_div (n : Int) {b : Int} (hb : 0 < b) :
    Int.floor ((n : ℚ) / (b : ℚ)) = n / b := by
  have hbn : b = ((b.toNat : ℕ) : ℤ) := (Int.toNat_of_nonneg hb.le).symm
  rw [hbn]
  rw [show (((b.toNat : ℕ) : ℤ) : ℚ) = ((b.toNat : ℕ) : ℚ) by push_cast; ring]
  exact Rat.floor_intCast_div_natCast n b.toNat

lemma fdiv_eq_floor_div (n : Int) {b : Int} (hb : 0 < b) :
    Int.fdiv n b = Int.floor ((n : ℚ) / (b : ℚ)) := by
  rw [floor_intCast_div n hb, Int.fdiv_eq_ediv n hb.le]

lemma pyCeilDiv_eq_ceil (a : Int) {b : Int} (hb : 0 < b) :
    pyCeilDiv a b = Int.ceil ((a : ℚ) / (b : ℚ)) := by
  unfold pyCeilDiv
  rw [fdiv_eq_floor_div (-a) hb]
  rw [show (((-a : ℤ) : ℚ)) / (b : ℚ) = -((a : ℚ) / (b : ℚ)) by push_cast; ring]
  rw [Int.floor_neg, neg_neg]

lemma fdiv_mono_left {a b : Int} (n : Int) (hn : 0 < n) (h : a ≤ b) :
    Int.fdiv a n ≤ Int.fdiv b n := by
  rw [Int.fdiv_eq_ediv _ hn.le, Int.fdiv_eq_ediv _ hn.le]
  exact Int.ediv_le_ediv hn h

lemma fdiv_min (a b n : Int) (hn : 0 < n) :
    Int.fdiv (min a b) n = min (Int.fdiv a n) (Int.fdiv b n) := by
  rcases le_total a b with h | h
  · rw [min_eq_left h, min_eq_left (fdiv_mono_left n hn h)]
  · rw [min_eq_right h, min_eq_right (fdiv_mono_left n hn h)]

lemma one_le_pyCeilDiv {a b : Int} (ha : 0 < a) (hb : 0 < b) :
    1 ≤ pyCeilDiv a b := by
  rw [pyCeilDiv_eq_ceil a hb]
  have : (0 : ℚ) < (a : ℚ) / (b : ℚ) := by
    apply div_pos <;> exact_mod_cast (by assumption)
  exact Int.ceil_pos.mpr this

lemma nodup_append_single {α : Type} (l : List α) (a : α)
    (h1 : l.Nodup) (h2 : a ∉ l) : (l ++ [a]).Nodup :=
  (List.nodup_cons.mpr ⟨h2, h1⟩).perm (List.perm_append_singleton a l).symm

lemma nodup_map_inj {α β : Type} (f : α → β) (l : List α)
    (h : (l.map f).Nodup) {x y : α} (hx : x ∈ l) (hy : y ∈ l)
    (hf : f x = f y) : x = y := by
  induction l with
  | nil => cases hx
  | cons a l ih =>
    rw [List.map_cons, List.nodup_cons] at h
    rcases List.mem_cons.mp hx with hx1 | hx1 <;>
      rcases List.mem_cons.mp hy with hy1 | hy1
    · rw [hx1, hy1]
    · exfalso
      apply h.1
      rw [hx1] at hf
      exact hf ▸ List.mem_map_of_mem f hy1
    · exfalso
      apply h.1
      rw [hy1] at hf
      exact hf.symm ▸ List.mem_map_of_mem f hx1
    · exact ih h.2 hx1 hy1

lemma lookup_none_of_forall (tid : String) (l : List (String × Int))
    (h : ∀ e ∈ l, e.1 ≠ tid) : l.lookup tid = none := by
  induction l with
  | nil => rfl
  | cons e l ih =>
    have hne : (tid == e.1) = false :=
      beq_eq_false_iff_ne.mpr (Ne.symm (h e (List.mem_cons_self e l)))
    obtain ⟨k, v⟩ := e
    simp only [List.lookup] at *
    rw [hne]
    exact ih (fun x hx => h x (List.mem_cons_of_mem _ hx))

lemma mem_of_lookup_some {α : Type} [BEq α] [LawfulBEq α]
    {l : List (α × List Box)} {k : α} {v : List Box}
    (h : List.lookup k l = some v) : (k, v) ∈ l := by
  induction l with
  | nil => cases h
  | cons e l ih =>
    obtain ⟨a, b⟩ := e
    simp only [List.lookup] at h
    by_cases hk : k == a
    · rw [hk] at h
      simp only [Option.some.injEq] at h
      rw [eq_of_beq hk, h]
      exact List.mem_cons_self _ _
    · rw [Bool.of_not_eq_true hk] at h
      exact List.mem_cons_of_mem _ (ih h)

/-! ### Concrete inputs used by witnesses and counterexamples -/

/-- A concrete instantiation of the abstract logarithmic and quadratic
float values. -/
def exLogVal : Int → Int → Int → Int := fun _ _ _ => 0

def exBoxA1 : Box := ⟨"a1", 5000000000, [("A", 5)]⟩

def exBoxB1 : Box := ⟨"b1", 1000, [("B", 50)]⟩

def exBoxX : Box := ⟨"x", 5000000000, [("A", 5), ("X", 1)]⟩

def exBoxY : Box := ⟨"y", 5000000000, [("A", 7)]⟩

def exSnapA : Snapshot := [("A", [exBoxA1])]

def exSnapAB : Snapshot := [("A", [exBoxA1]), ("B", [exBoxB1])]

def exSnapX : Snapshot := [("A", [exBoxX, exBoxY])]

/-- A linear config over token A: tokens_per_round 4, total 40. -/
def exCfgLinearA : TokenCfg := ⟨"A", "linear", 4, 40⟩

/-- A logarithmic config over token B whose derived total_rounds is 1. -/
def exCfgLogB : TokenCfg := ⟨"B", "logarithmic", 100, 100⟩

/-- A logarithmic config over token A whose derived total_rounds is 2. -/
def exCfgLogA : TokenCfg := ⟨"A", "logarithmic", 100, 200⟩

def exDistA : List TokenDistribution := [⟨"A", 10, 10⟩]

def exDistA1 : List TokenDistribution := [⟨"A", 1, 10⟩]

/-! ### Emission-schedule lemmas -/

/-- C2 (amended): for a logarithmic token config with positive amounts,
whenever the derived total_rounds is ≤ 1 or the round exceeds
total_rounds, the emission calculation raises rather than returning 0: a
math domain error when the log argument total_rounds − round + 1 is
non-positive, otherwise (total_rounds = 1) a zero-division error from
ln(total_rounds) = 0. -/
theorem logarithmic_edge_raises (lv qv : Int → Int → Int → Int)
    (base total r : Int) (hb : 0 < base) (ht : 0 < total)
    (h : pyCeilDiv total base ≤ 1 ∨ pyCeilDiv total base < r) :
    roundAmount lv qv "logarithmic" base total r =
      Except.error (if pyCeilDiv total base - r + 1 ≤ 0 then CalcErr.domainError
        else CalcErr.zeroDivision) := by
  have h1 : 1 ≤ pyCeilDiv total base := one_le_pyCeilDiv ht hb
  by_cases harg : pyCeilDiv total base - r + 1 ≤ 0
  · rw [if_pos harg]
    simp [roundAmount, hb.ne', harg]
  · rw [if_neg harg]
    have ht1 : pyCeilDiv total base = 1 := by omega
    simp [roundAmount, hb.ne', harg, ht1]
    omega

/-- Witness for C2's amended theorem: total_rounds = 1 and round 2. -/
theorem logarithmic_edge_raises_witness :
    roundAmount exLogVal exLogVal "logarithmic" 100 100 2
      = Except.error (if pyCeilDiv 100 100 - 2 + 1 ≤ 0 then CalcErr.domainError
        else CalcErr.zeroDivision) :=
  logarithmic_edge_raises exLogVal exLogVal 100 100 2 (by decide) (by decide)
    (Or.inl (by decide))

/-- C2 counterexample: a logarithmic token with tokens_per_round = 100
and total_amount = 100 (derived total_rounds = 1) and a positive
available total does not get a round amount of 0 at round 1 — the
emission calculation raises a zero-division error and the whole
`calculate_token_distributions` call aborts with it. -/
theorem logarithmic_edge_counterexample :
    roundAmount exLogVal exLogVal "logarithmic" 100 100 1
      = Except.error CalcErr.zeroDivision ∧
    calculate_token_distributions exLogVal exLogVal exSnapAB [exCfgLogB] 1 2
      = Except.error CalcErr.zeroDivision := by decide

lemma roundAmount_error_not_log (lv qv : Int → Int → Int → Int)
    (dtype : String) (base total r : Int) (hd : dtype ≠ "logarithmic")
    {e : CalcErr}
    (h : roundAmount lv qv dtype base total r = Except.error e) :
    e = CalcErr.zeroDivision := by
  simp only [roundAmount] at h
  by_cases hb : base = 0
  · rw [if_pos hb] at h
    exact (Except.error.injEq _ _ ▸ h).symm
  · rw [if_neg hb] at h
    by_cases hl : dtype = "linear"
    · rw [if_pos hl] at h; cases h
    · rw [if_neg hl, if_neg hd] at h
      by_cases hq : dtype = "quadratic"
      · rw [if_pos hq] at h
        by_cases ht : pyCeilDiv total base = 0
        · rw [if_pos ht] at h
          exact (Except.error.injEq _ _ ▸ h).symm
        · rw [if_neg ht] at h; cases h
      · rw [if_neg hq] at h; cases h

lemma processToken_zero_recipients (lv qv : Int → Int → Int → Int)
    (s : Snapshot) (r : Int) (c : TokenCfg)
    (h1 : s.get c.token_id ≠ []) (h2 : availTotal s c.token_id ≠ 0) :
    (processToken lv qv s r 0 c).isOk = false ∧
    (c.distribution_type ≠ "logarithmic" →
      processToken lv qv s r 0 c = Except.error CalcErr.zeroDivision) := by
  cases hr : roundAmount lv qv c.distribution_type c.tokens_per_round
      c.total_amount r with
  | error e =>
    constructor
    · simp only [processToken]
      rw [if_neg h1, if_neg h2, hr]
      rfl
    · intro hd
      rw [roundAmount_error_not_log lv qv _ _ _ _ hd hr] at hr
      simp only [processToken]
      rw [if_neg h1, if_neg h2, hr]
  | ok ra =>
    constructor
    · simp only [processToken]
      rw [if_neg h1, if_neg h2, hr]
      rfl
    · intro _
      simp only [processToken]
      rw [if_neg h1, if_neg h2, hr]
      rfl

lemma processToken_skip (lv qv : Int → Int → Int → Int) (s : Snapshot)
    (r n : Int) (c : TokenCfg)
    (h : s.get c.token_id = [] ∨ availTotal s c.token_id = 0) :
    processToken lv qv s r n c = Except.ok none := by
  simp only [processToken]
  by_cases hg : s.get c.token_id = []
  · rw [if_pos hg]
  · rw [if_neg hg]
    have h0 : availTotal s c.token_id = 0 := by tauto
    rw [if_pos h0]

/-- C9 (amended): with a recipient count of 0,
`calculate_token_distributions` raises whenever at least one configured
token has a non-empty UTXO list with a non-zero available total; the
raised error is the unguarded integer division by zero — unless a
logarithmic token's emission formula raises a math domain error first,
so when no configured token is logarithmic the error is exactly a
division by zero. -/
theorem zero_recipients_raises (lv qv : Int → Int → Int → Int)
    (s : Snapshot) (cfgs : List TokenCfg) (r : Int)
    (h : ∃ c ∈ cfgs, s.get c.token_id ≠ [] ∧ availTotal s c.token_id ≠ 0) :
    (calculate_token_distributions lv qv s cfgs r 0).isOk = false ∧
    ((∀ c ∈ cfgs, c.distribution_type ≠ "logarithmic") →
      calculate_token_distributions lv qv s cfgs r 0
        = Except.error CalcErr.zeroDivision) := by
  induction cfgs with
  | nil =>
    obtain ⟨c, hc, _⟩ := h
    cases hc
  | cons c rest ih =>
    obtain ⟨c2, hc2, hq1, hq2⟩ := h
    by_cases hcq : s.get c.token_id ≠ [] ∧ availTotal s c.token_id ≠ 0
    · obtain ⟨hko, hlog⟩ := processToken_zero_recipients lv qv s r c hcq.1 hcq.2
      constructor
      · unfold calculate_token_distributions
        cases hp : processToken lv qv s r 0 c with
        | error e => rfl
        | ok o => rw [hp] at hko; cases hko
      · intro hall
        unfold calculate_token_distributions
        rw [hlog (hall c (List.mem_cons_self c rest))]
    · have hnone : processToken lv qv s r 0 c = Except.ok none :=
        processToken_skip lv qv s r 0 c (by tauto)
      have hrest : ∃ c3 ∈ rest,
          s.get c3.token_id ≠ [] ∧ availTotal s c3.token_id ≠ 0 := by
        rcases List.mem_cons.mp hc2 with rfl | hmem
        · exact absurd ⟨hq1, hq2⟩ hcq
        · exact ⟨c2, hmem, hq1, hq2⟩
      obtain ⟨ih1, ih2⟩ := ih hrest
      constructor
      · unfold calculate_token_distributions
        rw [hnone]
        cases hrc : calculate_token_distributions lv qv s rest r 0 with
        | error e => rfl
        | ok ds => rw [hrc] at ih1; cases ih1
      · intro hall
        have hre := ih2 (fun c3 h3 => hall c3 (List.mem_cons_of_mem c h3))
        unfold calculate_token_distributions
        rw [hnone, hre]

/-- Witness for C9's amended theorem: one linear token with a funded
UTXO list and 0 recipients aborts with a division by zero. -/
theorem zero_recipients_raises_witness :
    (calculate_token_distributions exLogVal exLogVal exSnapA [exCfgLinearA] 1 0).isOk
      = false ∧
    calculate_token_distributions exLogVal exLogVal exSnapA [exCfgLinearA] 1 0
      = Except.error CalcErr.zeroDivision :=
  have h := zero_recipients_raises exLogVal exLogVal exSnapA [exCfgLinearA] 1
    ⟨exCfgLinearA, by decide, by decide, by decide⟩
  ⟨h.1, h.2 (by decide)⟩

/-- C9 counterexample: with 0 recipients and a single logarithmic token
whose round exceeds its total_rounds, the configured token has a
non-empty UTXO list and a positive available total, yet the raised error
is the math domain error of the emission formula, not a
division-by-zero error. -/
theorem zero_recipients_counterexample :
    calculate_token_distributions exLogVal exLogVal exSnapA [exCfgLogA] 5 0
      = Except.error CalcErr.domainError ∧
    calculate_token_distributions exLogVal exLogVal exSnapA [exCfgLogA] 5 0
      ≠ Except.error CalcErr.zeroDivision ∧
    exSnapA.get "A" ≠ [] ∧ availTotal exSnapA "A" ≠ 0 := by decide

/-- C8 (amended): token-level formula failures are not isolated — if any
token's `processToken` step raises, the whole
`calculate_token_distributions` call aborts with an error and no other
token's distribution is returned. -/
theorem formula_error_aborts_round (lv qv : Int → Int → Int → Int)
    (s : Snapshot) (cfgs : List TokenCfg) (r n : Int)
    (h : ∃ c ∈ cfgs, (processToken lv qv s r n c).isOk = false) :
    (calculate_token_distributions lv qv s cfgs r n).isOk = false := by
  induction cfgs with
  | nil =>
    obtain ⟨c, hc, _⟩ := h
    cases hc
  | cons c rest ih =>
    obtain ⟨c2, hc2, hbad⟩ := h
    unfold calculate_token_distributions
    cases hp : processToken lv qv s r n c with
    | error e => rfl
    | ok o =>
      rcases List.mem_cons.mp hc2 with rfl | hmem
      · rw [hp] at hbad; cases hbad
      · have := ih ⟨c2, hmem, hbad⟩
        cases hrc : calculate_token_distributions lv qv s rest r n with
        | error e => rfl
        | ok ds => rw [hrc] at this; cases this

/-- Witness for C8's amended theorem at a concrete two-token round. -/
theorem formula_error_aborts_round_witness :
    (calculate_token_distributions exLogVal exLogVal exSnapAB
      [exCfgLinearA, exCfgLogB] 1 2).isOk = false :=
  formula_error_aborts_round exLogVal exLogVal exSnapAB [exCfgLinearA, exCfgLogB] 1 2
    ⟨exCfgLogB, by decide, by decide⟩

/-- C8 counterexample: the linear token A alone yields a distribution,
but adding a logarithmic token B whose config makes its emission
calculation raise aborts the whole round — A's distribution is not
returned. -/
theorem isolation_counterexample :
    processToken exLogVal exLogVal exSnapAB 1 2 exCfgLinearA
      = Except.ok (some ⟨"A", 2, 4⟩) ∧
    calculate_token_distributions exLogVal exLogVal exSnapAB [exCfgLinearA] 1 2
      = Except.ok [⟨"A", 2, 4⟩] ∧
    calculate_token_distributions exLogVal exLogVal exSnapAB
      [exCfgLinearA, exCfgLogB] 1 2
      = Except.error CalcErr.zeroDivision := by decide

/-- A linear config over a token Z with no UTXOs in the snapshots. -/
def exCfgZ : TokenCfg := ⟨"Z", "linear", 4, 40⟩

/-- C6: for a positive recipient count, a token's appended distribution
carries amount_per_recipient = (min(round_amount, total available)
floor-divided by the recipient count), which is positive, with
total_amount = amount_per_recipient × recipient count; a token whose
quotient is not positive — in particular one with available total 0 —
contributes nothing, and every distribution in a successful
`calculate_token_distributions` result arises from some config this
way. -/
theorem per_recipient_amount (lv qv : Int → Int → Int → Int) (s : Snapshot)
    (r n : Int) (cfg : TokenCfg) (hn : 0 < n) :
    (∀ d, processToken lv qv s r n cfg = Except.ok (some d) →
      ∃ ra, roundAmount lv qv cfg.distribution_type cfg.tokens_per_round
          cfg.total_amount r = Except.ok ra ∧
        d.amount_per_recipient
          = Int.fdiv (min ra (availTotal s cfg.token_id)) n ∧
        0 < d.amount_per_recipient ∧
        d.total_amount = d.amount_per_recipient * n ∧
        d.token_id = cfg.token_id)
    ∧ (availTotal s cfg.token_id = 0 →
        processToken lv qv s r n cfg = Except.ok none)
    ∧ (∀ ra, roundAmount lv qv cfg.distribution_type cfg.tokens_per_round
          cfg.total_amount r = Except.ok ra →
        Int.fdiv (min ra (availTotal s cfg.token_id)) n ≤ 0 →
        processToken lv qv s r n cfg = Except.ok none)
    ∧ (∀ cfgs ds, calculate_token_distributions lv qv s cfgs r n = Except.ok ds →
        ∀ d ∈ ds, ∃ c ∈ cfgs, processToken lv qv s r n c = Except.ok (some d)) := by
  have hmin : ∀ ra : Int,
      min (Int.fdiv ra n) (Int.fdiv (availTotal s cfg.token_id) n)
        = Int.fdiv (min ra (availTotal s cfg.token_id)) n :=
    fun ra => (fdiv_min ra (availTotal s cfg.token_id) n hn).symm
  refine ⟨?_, ?_, ?_, ?_⟩
  · intro d hd
    simp only [processToken] at hd
    by_cases hg : s.get cfg.token_id = []
    · rw [if_pos hg] at hd; cases hd
    · rw [if_neg hg] at hd
      by_cases h0 : availTotal s cfg.token_id = 0
      · rw [if_pos h0] at hd; cases hd
      · rw [if_neg h0] at hd
        cases hr : roundAmount lv qv cfg.distribution_type cfg.tokens_per_round
            cfg.total_amount r with
        | error e => rw [hr] at hd; cases hd
        | ok ra =>
          rw [hr] at hd
          dsimp only at hd
          rw [if_neg hn.ne'] at hd
          by_cases hper :
              0 < min (Int.fdiv ra n) (Int.fdiv (availTotal s cfg.token_id) n)
          · rw [if_pos hper] at hd
            obtain rfl : (⟨cfg.token_id, _, _⟩ : TokenDistribution) = d :=
              Except.ok.inj hd |> Option.some.inj
            exact ⟨ra, rfl, (hmin ra).symm ▸ rfl, hmin ra ▸ hper,
              rfl, rfl⟩
          · rw [if_neg hper] at hd; cases hd
  · intro h0
    exact processToken_skip lv qv s r n cfg (Or.inr h0)
  · intro ra hr hle
    simp only [processToken]
    by_cases hg : s.get cfg.token_id = []
    · rw [if_pos hg]
    · rw [if_neg hg]
      by_cases h0 : availTotal s cfg.token_id = 0
      · rw [if_pos h0]
      · rw [if_neg h0, hr]
        dsimp only
        rw [if_neg hn.ne']
        rw [if_neg (by rw [hmin ra]; omega)]
  · intro cfgs
    induction cfgs with
    | nil =>
      intro ds hds d hd
      obtain rfl : ([] : List TokenDistribution) = ds := Except.ok.inj hds
      cases hd
    | cons c rest ih =>
      intro ds hds d hd
      unfold calculate_token_distributions at hds
      cases hp : processToken lv qv s r n c with
      | error e => rw [hp] at hds; cases hds
      | ok o =>
        rw [hp] at hds
        cases hrc : calculate_token_distributions lv qv s rest r n with
        | error e => rw [hrc] at hds; cases hds
        | ok ds2 =>
          rw [hrc] at hds
          obtain rfl : o.toList ++ ds2 = ds := Except.ok.inj hds
          rcases List.mem_append.mp hd with hdo | hd2
          · cases o with
            | none => cases hdo
            | some d0 =>
              obtain rfl : d = d0 := List.mem_singleton.mp hdo
              exact ⟨c, List.mem_cons_self c rest, hp⟩
          · obtain ⟨c3, hc3, hpc3⟩ := ih ds2 hrc d hd2
            exact ⟨c3, List.mem_cons_of_mem c hc3, hpc3⟩

/-- Witness for C6: two recipients; a token with available total 0 is
omitted entirely. -/
theorem per_recipient_amount_witness :
    processToken exLogVal exLogVal exSnapAB 1 2 exCfgZ = Except.ok none :=
  (per_recipient_amount exLogVal exLogVal exSnapAB 1 2 exCfgZ (by decide)).2.1
    (by decide)

/-- A multi-token box with id z, before one with id a, tied at one
requested token each. -/
def exBoxZ2 : Box := ⟨"z", 1000, [("A", 1), ("X", 1)]⟩

def exBoxA2 : Box := ⟨"a", 1000, [("A", 2), ("Y", 1)]⟩

def exSnapTie : Snapshot := [("A", [exBoxZ2, exBoxA2])]

/-- C5 (amended): pass 1's candidates are exactly the snapshot UTXOs
whose token dict has more than one entry — counted over all tokens the
box holds, requested or not — and they are consumed in descending order
of the count of distinct requested tokens held, the sorted list being a
permutation of the candidates; ties keep snapshot enumeration order
(stable sort), they are not broken by UTXO identifier. -/
theorem pass1_candidates_and_order (s : Snapshot)
    (dists : List TokenDistribution) :
    (∀ b : Box, b ∈ multiTokenBoxes s ↔
      ((∃ p ∈ s, b ∈ p.2) ∧ b.tokens.length > 1))
    ∧ (sortedMultiTokenBoxes s dists).Pairwise
        (fun a b => requestedCount dists b ≤ requestedCount dists a)
    ∧ (sortedMultiTokenBoxes s dists).Perm (multiTokenBoxes s) := by
  refine ⟨?_, ?_, List.perm_insertionSort _ _⟩
  · intro b
    unfold multiTokenBoxes
    rw [List.mem_flatMap]
    constructor
    · rintro ⟨p, hp, hb⟩
      rw [List.mem_filter] at hb
      refine ⟨⟨p, hp, hb.1⟩, by simpa using hb.2⟩
    · rintro ⟨⟨p, hp, hb⟩, hlen⟩
      exact ⟨p, hp, List.mem_filter.mpr ⟨hb, by simpa using hlen⟩⟩
  · haveI : IsTotal Box
        (fun a b => requestedCount dists b ≤ requestedCount dists a) :=
      ⟨fun a b => le_total _ _⟩
    haveI : IsTrans Box
        (fun a b => requestedCount dists b ≤ requestedCount dists a) :=
      ⟨fun a b c h1 h2 => le_trans h2 h1⟩
    exact List.sorted_insertionSort _ _

/-- Witness for C5's amended theorem at a concrete snapshot. -/
theorem pass1_candidates_and_order_witness :
    (sortedMultiTokenBoxes exSnapX exDistA1).Perm (multiTokenBoxes exSnapX) :=
  (pass1_candidates_and_order exSnapX exDistA1).2.2

/-- C5 counterexample: the box x holds exactly one requested token (A)
plus an unrequested one, yet it is a pass-1 candidate and is consumed in
pass 1 — the candidate filter counts all tokens a box holds, not
requested ones; and two candidates tied at one requested token each keep
snapshot order z before a instead of being tie-broken by identifier. -/
theorem pass1_filter_counterexample :
    requestedCount exDistA1 exBoxX = 1 ∧
    exBoxX ∈ multiTokenBoxes exSnapX ∧
    exBoxX.box_id ∈ (pass1 exSnapX exDistA1).ids ∧
    (sortedMultiTokenBoxes exSnapTie exDistA1).map Box.box_id
      = ["z", "a"] := by decide

/-- C3 (amended): `select_utxos` succeeds exactly when, after the two
passes, every distribution's per-token target and the required
reserve-currency minimum are met; a returned `UTXOSet` meets every
target, and a failure raises the first applicable error: the token
error listing exactly the short tokens (need and have) whenever any
token target is unmet — even when the reserve-currency minimum is also
short, which then goes unnamed — or, with every token covered, the ERG
error carrying need and have. -/
theorem select_utxos_contract (s : Snapshot)
    (dists : List TokenDistribution) (n : Int) :
    ((select_utxos s dists n).isOk = true ↔
      ((∀ d ∈ dists,
          d.total_amount ≤ (selectState s dists).amts d.token_id) ∧
        neededErg n ≤ (selectState s dists).total_erg))
    ∧ (∀ u, select_utxos s dists n = Except.ok u →
        ((∀ d ∈ dists, d.total_amount ≤ u.token_amounts d.token_id) ∧
          neededErg n ≤ u.total_erg))
    ∧ (∀ e, select_utxos s dists n = Except.error e →
        (e = SelErr.insufficientTokens
            ((dists.filter (fun d =>
              (selectState s dists).amts d.token_id < d.total_amount)).map
              (fun d => (d.token_id, d.total_amount,
                (selectState s dists).amts d.token_id))) ∧
          ∃ d ∈ dists,
            (selectState s dists).amts d.token_id < d.total_amount)
        ∨ (e = SelErr.insufficientErg (neededErg n)
              (selectState s dists).total_erg ∧
            (∀ d ∈ dists,
              d.total_amount ≤ (selectState s dists).amts d.token_id) ∧
            (selectState s dists).total_erg < neededErg n)) := by
  by_cases hm : dists.filter (fun d =>
      (selectState s dists).amts d.token_id < d.total_amount) = []
  · have hall : ∀ d ∈ dists,
        d.total_amount ≤ (selectState s dists).amts d.token_id := by
      intro d hd
      have hnd := List.filter_eq_nil_iff.mp hm d hd
      simp only [decide_eq_true_iff] at hnd
      omega
    by_cases he : (selectState s dists).total_erg < neededErg n
    · have hsel : select_utxos s dists n
          = Except.error (SelErr.insufficientErg (neededErg n)
            (selectState s dists).total_erg) := by
        simp only [select_utxos]
        rw [if_neg (not_not_intro hm), if_pos he]
      refine ⟨?_, ?_, ?_⟩
      · constructor
        · intro hh
          rw [hsel] at hh
          simp [Except.isOk, Except.toBool] at hh
        · rintro ⟨_, h2⟩
          omega
      · intro u hu
        rw [hsel] at hu
        cases hu
      · intro e heq
        rw [hsel] at heq
        obtain rfl := (Except.error.inj heq).symm
        exact Or.inr ⟨rfl, hall, he⟩
    · have hsel : select_utxos s dists n
          = Except.ok ⟨(selectState s dists).boxes,
            (selectState s dists).total_erg, (selectState s dists).amts,
            (selectState s dists).ids⟩ := by
        simp only [select_utxos]
        rw [if_neg (not_not_intro hm), if_neg he]
      refine ⟨?_, ?_, ?_⟩
      · constructor
        · intro _
          exact ⟨hall, not_lt.mp he⟩
        · intro _
          rw [hsel]
          rfl
      · intro u hu
        rw [hsel] at hu
        obtain rfl := (Except.ok.inj hu).symm
        exact ⟨hall, not_lt.mp he⟩
      · intro e heq
        rw [hsel] at heq
        cases heq
  · obtain ⟨d0, hd0⟩ := List.exists_mem_of_ne_nil _ hm
    rw [List.mem_filter] at hd0
    have hlt : (selectState s dists).amts d0.token_id < d0.total_amount :=
      of_decide_eq_true hd0.2
    have hsel : select_utxos s dists n
        = Except.error (SelErr.insufficientTokens
          ((dists.filter (fun d =>
            (selectState s dists).amts d.token_id < d.total_amount)).map
            (fun d => (d.token_id, d.total_amount,
              (selectState s dists).amts d.token_id)))) := by
      simp only [select_utxos]
      rw [if_pos hm]
    refine ⟨?_, ?_, ?_⟩
    · constructor
      · intro hh
        rw [hsel] at hh
        simp [Except.isOk, Except.toBool] at hh
      · rintro ⟨h1, _⟩
        have := h1 d0 hd0.1
        omega
    · intro u hu
      rw [hsel] at hu
      cases hu
    · intro e heq
      rw [hsel] at heq
      obtain rfl := (Except.error.inj heq).symm
      exact Or.inl ⟨rfl, d0, hd0.1, hlt⟩

/-- Witness for C3's amended theorem: a concrete selection that
succeeds. -/
theorem select_utxos_contract_witness :
    (select_utxos exSnapX exDistA1 1).isOk = true :=
  (select_utxos_contract exSnapX exDistA1 1).1.mpr
    ⟨by decide, by decide⟩

/-- A funded but ERG-poor box: 5 of token A, only 100 nanoERG. -/
def exBoxPoor : Box := ⟨"p1", 100, [("A", 5)]⟩

def exSnapPoor : Snapshot := [("A", [exBoxPoor])]

/-- The error raised by `select_utxos`, if any. -/
def selectError (s : Snapshot) (dists : List TokenDistribution)
    (n : Int) : Option SelErr :=
  match select_utxos s dists n with
  | Except.error e => some e
  | Except.ok _ => none

/-- C3 counterexample: with 10 of token A demanded but only 5 available,
and only 100 nanoERG collected against the 3000000 nanoERG requirement,
both resources are short, yet `select_utxos` raises only the token
error naming A's shortfall — the ERG shortfall is a short resource the
error does not name. -/
theorem select_error_counterexample :
    selectError exSnapPoor exDistA 1
      = some (SelErr.insufficientTokens [("A", 10, 5)]) ∧
    (selectState exSnapPoor exDistA).total_erg < neededErg 1 := by decide

/-- The selection-state invariant: the used-id set lists exactly the ids
of the selected boxes, in order, without duplicates. -/
def SelInv (st : SelState) : Prop :=
  st.ids = st.boxes.map Box.box_id ∧ st.ids.Nodup

lemma selInv_mk (boxes : List Box) (ids : List String) (te : Int)
    (am : String → Int) (b : Box) (h1 : ids = boxes.map Box.box_id)
    (h2 : ids.Nodup) (hb : b.box_id ∉ ids) :
    SelInv ⟨boxes ++ [b], ids ++ [b.box_id], te, am⟩ :=
  ⟨by simp [h1], nodup_append_single _ _ h2 hb⟩

lemma selInv_pass1Step (dists : List TokenDistribution) (st : SelState)
    (b : Box) (h : SelInv st) : SelInv (pass1Step dists st b) := by
  unfold pass1Step
  by_cases hb : b.box_id ∈ st.ids
  · rw [if_pos hb]
    exact h
  · rw [if_neg hb]
    exact selInv_mk _ _ _ _ b h.1 h.2 hb

lemma selInv_pass1 (s : Snapshot) (dists : List TokenDistribution) :
    SelInv (pass1 s dists) := by
  unfold pass1
  generalize sortedMultiTokenBoxes s dists = l
  have hfold : ∀ (l2 : List Box) (st : SelState), SelInv st →
      SelInv (l2.foldl (pass1Step dists) st) := by
    intro l2
    induction l2 with
    | nil => intro st h; exact h
    | cons b l2 ih => intro st h; exact ih _ (selInv_pass1Step dists st b h)
  exact hfold l _ ⟨rfl, List.nodup_nil⟩

lemma selInv_consume (tid : String) (target : Int) :
    ∀ (l : List Box) (st : SelState), SelInv st →
    (l.map Box.box_id).Nodup → (∀ b ∈ l, b.box_id ∉ st.ids) →
    SelInv (consume tid target l st)
  | [], st, h, _, _ => h
  | b :: l, st, h, hnd, hdisj => by
    unfold consume
    by_cases hc : target ≤ st.amts tid
    · rw [if_pos hc]
      exact h
    · rw [if_neg hc]
      rw [List.map_cons, List.nodup_cons] at hnd
      refine selInv_consume tid target l _
        (selInv_mk _ _ _ _ b h.1 h.2 (hdisj b (List.mem_cons_self b l)))
        hnd.2 ?_
      intro b2 hb2 hmem
      rcases List.mem_append.mp hmem with hin | hone
      · exact hdisj b2 (List.mem_cons_of_mem b hb2) hin
      · exact hnd.1 (List.mem_singleton.mp hone ▸ List.mem_map_of_mem Box.box_id hb2)

lemma snapshot_get_nodup (s : Snapshot)
    (hsnap : ∀ p ∈ s, (p.2.map Box.box_id).Nodup) (tid : String) :
    (((s.get tid)).map Box.box_id).Nodup := by
  unfold Snapshot.get
  cases hlk : List.lookup tid s with
  | none => simp
  | some l =>
    have := hsnap (tid, l) (mem_of_lookup_some hlk)
    simpa using this

lemma selInv_pass2Step (s : Snapshot)
    (hsnap : ∀ p ∈ s, (p.2.map Box.box_id).Nodup) (st : SelState)
    (d : TokenDistribution) (h : SelInv st) : SelInv (pass2Step s st d) := by
  unfold pass2Step
  by_cases hc : st.amts d.token_id < d.total_amount
  · rw [if_pos hc]
    have hfil : ((((s.get d.token_id)).filter
        (fun b => b.box_id ∉ st.ids)).map Box.box_id).Nodup :=
      ((List.filter_sublist _).map Box.box_id).nodup
        (snapshot_get_nodup s hsnap d.token_id)
    have hperm := List.perm_insertionSort
      (fun a b => b.tokenAmount d.token_id ≤ a.tokenAmount d.token_id)
      (((s.get d.token_id)).filter (fun b => b.box_id ∉ st.ids))
    refine selInv_consume _ _ _ _ h ?_ ?_
    · exact hfil.perm (hperm.map Box.box_id).symm
    · intro b hb
      have hbm := hperm.mem_iff.mp hb
      rw [List.mem_filter] at hbm
      simpa using hbm.2
  · rw [if_neg hc]
    exact h

lemma selInv_selectState (s : Snapshot) (dists : List TokenDistribution)
    (hsnap : ∀ p ∈ s, (p.2.map Box.box_id).Nodup) :
    SelInv (selectState s dists) := by
  unfold selectState
  have hfold : ∀ (ds : List TokenDistribution) (st : SelState), SelInv st →
      SelInv (ds.foldl (pass2Step s) st) := by
    intro ds
    induction ds with
    | nil => intro st h; exact h
    | cons d ds ih => intro st h; exact ih _ (selInv_pass2Step s hsnap st d h)
  exact hfold dists _ (selInv_pass1 s dists)

/-- C4: when every per-token snapshot list is free of duplicate box ids
— the same UTXO may still be listed under several token ids — the
selection built by the two passes never contains a box id twice: the
used-id set is duplicate-free and lists exactly the selected boxes' ids,
both for the shared two-pass state and for any returned `UTXOSet`. -/
theorem no_duplicate_selection (s : Snapshot)
    (dists : List TokenDistribution) (n : Int)
    (h : ∀ p ∈ s, (p.2.map Box.box_id).Nodup) :
    ((selectState s dists).boxes.map Box.box_id).Nodup
    ∧ (selectState s dists).ids = (selectState s dists).boxes.map Box.box_id
    ∧ (selectState s dists).ids.Nodup
    ∧ (∀ u, select_utxos s dists n = Except.ok u →
        (u.boxes.map Box.box_id).Nodup
          ∧ u.box_ids = u.boxes.map Box.box_id) := by
  obtain ⟨h1, h2⟩ := selInv_selectState s dists h
  refine ⟨h1 ▸ h2, h1, h2, ?_⟩
  intro u hu
  simp only [select_utxos] at hu
  by_cases hm : dists.filter (fun d =>
      (selectState s dists).amts d.token_id < d.total_amount) = []
  · rw [if_neg (not_not_intro hm)] at hu
    by_cases he : (selectState s dists).total_erg < neededErg n
    · rw [if_pos he] at hu
      cases hu
    · rw [if_neg he] at hu
      obtain rfl := (Except.ok.inj hu).symm
      exact ⟨h1 ▸ h2, h1⟩
  · rw [if_pos hm] at hu
    cases hu

/-- One UTXO listed in the snapshot under both of the token ids it
holds. -/
def exSnapDup : Snapshot := [("A", [exBoxX]), ("X", [exBoxX])]

def exDistAX : List TokenDistribution := [⟨"A", 1, 2⟩, ⟨"X", 1, 1⟩]

/-- Witness for C4: the box x is listed under both requested tokens A
and X, yet the selected boxes carry no duplicate id. -/
theorem no_duplicate_selection_witness :
    ((selectState exSnapDup exDistAX).boxes.map Box.box_id).Nodup ∧
    (selectState exSnapDup exDistAX).ids
      = (selectState exSnapDup exDistAX).boxes.map Box.box_id :=
  have h := no_duplicate_selection exSnapDup exDistAX 1 (by decide)
  ⟨h.1, h.2.1⟩

/-- C10: `distribute_multiple_tokens` raises before building outputs
only for a short reserve-currency total — success holds if and only if
the collected ERG meets the requirement, with no per-token coverage
check; every recipient output carries the full per-recipient amount of
every distribution regardless of coverage, and a token whose covered
amount is below its total_amount gets no change entry (its negative
change is silently dropped) instead of failing. -/
theorem distribute_no_coverage_check (s : Snapshot)
    (dists : List TokenDistribution) (recipients : List String)
    (hnd : (requestedIds dists).Nodup) :
    ((distribute_multiple_tokens s dists recipients).isOk = true ↔
      neededErg (recipients.length : Int)
        ≤ (collectInputs s dists).total_erg)
    ∧ (∀ p, distribute_multiple_tokens s dists recipients = Except.ok p →
        (∀ o ∈ p.recipientOutputs,
          o.2.tokens
            = dists.map (fun d => (d.token_id, d.amount_per_recipient))
          ∧ o.2.value = NANOERG_PER_RECIPIENT + MIN_BOX_VALUE)
        ∧ p.recipientOutputs.map Prod.fst = recipients
        ∧ (∀ d ∈ dists,
            coveredAmount s (collectInputs s dists).used d.token_id
              < d.total_amount →
            p.changeEntry d.token_id = none)) := by
  by_cases he : (collectInputs s dists).total_erg
      < neededErg (recipients.length : Int)
  · have hsel : distribute_multiple_tokens s dists recipients
        = Except.error (DistErr.notEnoughErg
          (neededErg (recipients.length : Int))
          (collectInputs s dists).total_erg) := by
      simp only [distribute_multiple_tokens]
      rw [show (NANOERG_PER_RECIPIENT + MIN_BOX_VALUE) * ((recipients.length : Int))
          + FEE = neededErg (recipients.length : Int) from rfl]
      rw [if_pos he]
    constructor
    · constructor
      · intro hh
        rw [hsel] at hh
        simp [Except.isOk, Except.toBool] at hh
      · intro h2
        omega
    · intro p hp
      rw [hsel] at hp
      cases hp
  · have hsel : distribute_multiple_tokens s dists recipients
        = Except.ok ⟨(collectInputs s dists).inputs,
          recipients.map (fun rcp =>
            (rcp, OutBox.mk (NANOERG_PER_RECIPIENT + MIN_BOX_VALUE)
              (dists.map (fun d => (d.token_id, d.amount_per_recipient))))),
          if 0 < (collectInputs s dists).total_erg
                - neededErg (recipients.length : Int)
              ∨ dists.filterMap (fun d =>
                  let change_amount := coveredAmount s
                    (collectInputs s dists).used d.token_id - d.total_amount
                  if 0 < change_amount then some (d.token_id, change_amount)
                  else none) ≠ [] then
            some (OutBox.mk
              (max ((collectInputs s dists).total_erg
                - neededErg (recipients.length : Int)) MIN_BOX_VALUE)
              (dists.filterMap (fun d =>
                let change_amount := coveredAmount s
                  (collectInputs s dists).used d.token_id - d.total_amount
                if 0 < change_amount then some (d.token_id, change_amount)
                else none)))
          else none⟩ := by
      simp only [distribute_multiple_tokens]
      rw [show (NANOERG_PER_RECIPIENT + MIN_BOX_VALUE) * ((recipients.length : Int))
          + FEE = neededErg (recipients.length : Int) from rfl]
      rw [if_neg he]
    refine ⟨⟨fun _ => not_lt.mp he, fun _ => by rw [hsel]; rfl⟩, ?_⟩
    intro p hp
    rw [hsel] at hp
    obtain rfl := (Except.ok.inj hp).symm
    refine ⟨?_, ?_, ?_⟩
    · intro o ho
      obtain ⟨rcp, _, rfl⟩ := List.mem_map.mp ho
      exact ⟨rfl, rfl⟩
    · rw [List.map_map]
      exact List.map_id recipients
    · intro d hd hcov
      have hentries : ∀ e ∈ dists.filterMap (fun d2 =>
          let change_amount := coveredAmount s
            (collectInputs s dists).used d2.token_id - d2.total_amount
          if 0 < change_amount then some (d2.token_id, change_amount)
          else none), e.1 ≠ d.token_id := by
        intro e hee heq
        obtain ⟨d2, hd2, hfd2⟩ := List.mem_filterMap.mp hee
        dsimp only at hfd2
        by_cases hpos : 0 < coveredAmount s
            (collectInputs s dists).used d2.token_id - d2.total_amount
        · rw [if_pos hpos] at hfd2
          obtain rfl := (Option.some.inj hfd2).symm
          have hde : d2 = d := nodup_map_inj _ dists hnd hd2 hd heq
          rw [hde] at hpos
          omega
        · rw [if_neg hpos] at hfd2
          cases hfd2
      unfold Plan.changeEntry
      by_cases hcb : 0 < (collectInputs s dists).total_erg
            - neededErg (recipients.length : Int)
          ∨ dists.filterMap (fun d2 =>
              let change_amount := coveredAmount s
                (collectInputs s dists).used d2.token_id - d2.total_amount
              if 0 < change_amount then some (d2.token_id, change_amount)
              else none) ≠ []
      · rw [if_pos hcb]
        exact lookup_none_of_forall _ _ hentries
      · rw [if_neg hcb]

/-- Witness for C10: the concrete under-covered input still succeeds. -/
theorem distribute_no_coverage_check_witness :
    (distribute_multiple_tokens exSnapA exDistA ["r1"]).isOk = true :=
  (distribute_no_coverage_check exSnapA exDistA ["r1"] (by decide)).1.mpr
    (by decide)

/-- C1: at the concrete input where the snapshot holds 5 of token A but
the distribution demands 10, `distribute_multiple_tokens` succeeds (the
ERG check passes), pays the full 10 to the recipient with a change of 0
for A, while the selected inputs only cover 5 — the returned plan
violates per-token conservation and no check aborts it. -/
theorem conservation_violation_unchecked :
    (distribute_multiple_tokens exSnapA exDistA ["r1"]).isOk = true ∧
    (distribute_multiple_tokens exSnapA exDistA ["r1"]).toOption.map
      (fun p => p.paidTotal "A" + p.changeAmount "A") = some 10 ∧
    coveredAmount exSnapA (collectInputs exSnapA exDistA).used "A" = 5 := by
  decide
